import Mathlib

/-!
Shallow embedding of the `okcl/ai-incident-response` pipeline
(`src/processors/data_processor.py`, `src/collectors/data_collector.py`),
together with theorems checking the design document's claims about it.

External capabilities (the spaCy NLP model and the ArcGIS geocoder) are
modelled as function parameters: `nlp : String → List Entity` stands for
`self.nlp(text).ents`, and `geocode : String → Except Unit (Option GeoMatch)`
stands for the geocoding call, which can raise (`Except.error`), return no
match (`Except.ok none`), or return a best match row.  File I/O in
`process_data` is modelled by an `Except`-valued input (reading/parsing the
input file can fail) and a boolean `writeOk` (writing the output file can
fail); the written output file's content is the function's `Option` result,
`none` meaning the batch aborted and nothing was written.
-/

namespace IncidentResponse

/-- ASCII lower-casing of one character, the fragment of Python's
`str.lower()` exercised by the pipeline's ASCII keyword table. -/
def lowerChar (c : Char) : Char :=
  if 65 ≤ c.toNat && c.toNat ≤ 90 then Char.ofNat (c.toNat + 32) else c

/-- Python's `text.lower()` (ASCII fragment). -/
def lowerStr (s : String) : String := ⟨s.data.map lowerChar⟩

/-- `startsWithL n h` : the char list `n` is a prefix of `h`. -/
def startsWithL : List Char → List Char → Bool
  | [], _ => true
  | _ :: _, [] => false
  | a :: as, b :: bs => a == b && startsWithL as bs

/-- `containsL n h` : the char list `n` occurs contiguously inside `h`
(Python's `n in h` on strings). -/
def containsL (n : List Char) : List Char → Bool
  | [] => startsWithL n []
  | c :: rest => startsWithL n (c :: rest) || containsL n rest

/-- Python's substring test `needle in hay`. -/
def strContains (hay needle : String) : Bool := containsL needle.data hay.data

/-- An entity mention produced by the NLP model: a span of text plus a label
such as `"GPE"`, `"LOC"` or `"EVENT"`. -/
structure Entity where
  text : String
  label : String
deriving DecidableEq

/-- The first row of a non-empty geocoding result: the `City`, `Country`,
`Y` and `X` fields read by `extract_location` (`Y`/`X` may be absent). -/
structure GeoMatch where
  city : String
  country : String
  y : Option ℚ
  x : Option ℚ
deriving DecidableEq

/-- The location dictionary built by `extract_location`. -/
structure LocationInfo where
  city : String
  country : String
  coordinates : List (Option ℚ)
deriving DecidableEq

/-- `{"city": "", "country": "", "coordinates": []}`. -/
def empty_location : LocationInfo := ⟨"", "", []⟩

/-- `ent.label_ in ["GPE", "LOC"]`. -/
def isPlaceLabel (l : String) : Bool := l == "GPE" || l == "LOC"

/-- The entity loop of `extract_location`: try each `GPE`/`LOC` entity in
order; a geocoder match returns immediately, an empty geocoder result falls
through to the next entity, and a raised geocoder error propagates (there is
no `try`/`except` in `extract_location`). -/
def locLoop (geocode : String → Except Unit (Option GeoMatch)) :
    List Entity → Except Unit LocationInfo
  | [] => .ok empty_location
  | e :: rest =>
    if isPlaceLabel e.label then
      match geocode e.text with
      | .error u => .error u
      | .ok (some g) => .ok ⟨g.city, g.country, [g.y, g.x]⟩
      | .ok none => locLoop geocode rest
    else locLoop geocode rest

/-- `DataProcessor.extract_location` (lines 38–53). -/
def extract_location (nlp : String → List Entity)
    (geocode : String → Except Unit (Option GeoMatch)) (text : String) :
    Except Unit LocationInfo :=
  locLoop geocode (nlp text)

/-- The keyword → incident-type table of `identify_incident_type`
(lines 59–128), in its Python definition (insertion) order. -/
def keywords : List (String × String) := [
  ("flood", "flooding"),
  ("heavy rain", "flooding"),
  ("inundation", "flooding"),
  ("waterlogging", "flooding"),
  ("hurricane", "hurricane"),
  ("typhoon", "hurricane"),
  ("cyclone", "hurricane"),
  ("tornado", "tornado"),
  ("twister", "tornado"),
  ("storm", "storm"),
  ("thunderstorm", "storm"),
  ("hailstorm", "storm"),
  ("blizzard", "storm"),
  ("snowstorm", "storm"),
  ("drought", "drought"),
  ("heatwave", "drought"),
  ("wildfire", "wildfire"),
  ("bushfire", "wildfire"),
  ("forest fire", "wildfire"),
  ("earthquake", "earthquake"),
  ("seismic", "earthquake"),
  ("quake", "earthquake"),
  ("tsunami", "tsunami"),
  ("tidal wave", "tsunami"),
  ("volcano", "volcanic eruption"),
  ("eruption", "volcanic eruption"),
  ("lava", "volcanic eruption"),
  ("ashfall", "volcanic eruption"),
  ("landslide", "landslide"),
  ("mudslide", "landslide"),
  ("avalanche", "avalanche"),
  ("collapse", "building collapse"),
  ("building collapse", "building collapse"),
  ("sinkhole", "sinkhole"),
  ("pandemic", "pandemic"),
  ("epidemic", "epidemic"),
  ("disease outbreak", "epidemic"),
  ("fire", "fire"),
  ("explosion", "explosion"),
  ("blast", "explosion"),
  ("chemical spill", "hazardous material"),
  ("gas leak", "hazardous material"),
  ("radiation leak", "hazardous material"),
  ("toxic release", "hazardous material"),
  ("industrial accident", "industrial accident"),
  ("train crash", "transportation accident"),
  ("plane crash", "transportation accident"),
  ("shipwreck", "transportation accident"),
  ("road accident", "transportation accident"),
  ("car crash", "transportation accident"),
  ("vehicle collision", "transportation accident"),
  ("traffic incident", "transportation accident"),
  ("terrorist attack", "terrorism"),
  ("bombing", "terrorism"),
  ("shooting", "terrorism"),
  ("hostage", "terrorism"),
  ("cyberattack", "cyberattack"),
  ("data breach", "cyberattack"),
  ("phishing", "cyberattack"),
  ("power outage", "infrastructure failure"),
  ("blackout", "infrastructure failure"),
  ("water shortage", "infrastructure failure"),
  ("bridge collapse", "infrastructure failure"),
  ("dam breach", "infrastructure failure"),
  ("riot", "civil unrest"),
  ("protest", "civil unrest"),
  ("demonstration", "civil unrest"),
  ("stampede", "civil unrest")]

/-- The `for keyword, incident_type in keywords.items()` loop: return the
label of the first keyword contained in `t`, else `"unknown"`. -/
def lookupType (t : String) : List (String × String) → String
  | [] => "unknown"
  | kv :: rest => if strContains t kv.1 then kv.2 else lookupType t rest

/-- `DataProcessor.identify_incident_type` (lines 55–132). -/
def identify_incident_type (text : String) : String :=
  lookupType (lowerStr text) keywords

/-- One parsed element of the input JSON array, carrying the keys that
`process_data` and the collector touch; an absent key is `none`. -/
structure RawPost where
  text : Option String
  created_at : Option String
  date : Option String
deriving DecidableEq

/-- One element of the output JSON array written by `process_data`
(lines 149–155): the dictionary literal's five keys. -/
structure StandardizedIncident where
  incident_type : String
  location : LocationInfo
  date : String
  description : String
  original_text : String
deriving DecidableEq

/-- The body of `process_data`'s `for entry in raw_data` loop (lines
146–156): build one standardized entry, propagating any error raised by the
geocoder inside `extract_location`. -/
def process_entry (nlp : String → List Entity)
    (geocode : String → Except Unit (Option GeoMatch)) (entry : RawPost) :
    Except Unit StandardizedIncident := do
  let location_info ← extract_location nlp geocode (entry.text.getD "")
  .ok { incident_type := identify_incident_type (entry.text.getD ""),
        location := location_info,
        date := entry.created_at.getD "",
        description := entry.text.getD "",
        original_text := entry.text.getD "" }

/-- Effectful map: the processing loop over the batch, stopping at the first
raised error. -/
def mapExcept (f : α → Except ε β) : List α → Except ε (List β)
  | [] => .ok []
  | a :: as => do
    let b ← f a
    let bs ← mapExcept f as
    .ok (b :: bs)

/-- `DataProcessor.process_data` (lines 134–164).  `raw` is the attempt to
read and parse the input file, `writeOk` whether writing the output file
succeeds.  The surrounding `try`/`except` catches every error and prints it,
so the function always returns; the result is the content of the output
file, `none` when the batch aborted and nothing was written. -/
def process_data (nlp : String → List Entity)
    (geocode : String → Except Unit (Option GeoMatch))
    (raw : Except Unit (List RawPost)) (writeOk : Bool) :
    Option (List StandardizedIncident) :=
  match raw with
  | .error _ => none
  | .ok entries =>
    match mapExcept (process_entry nlp geocode) entries with
    | .error _ => none
    | .ok processed_data => if writeOk then some processed_data else none

/-- `DataCollector.fetch_posts_by_username` (data_collector.py lines 48–54)
emits each post as `{"text": ..., "date": ...}` — the date is stored under
the key `date`, not `created_at`. -/
def collected_post (text date : String) : RawPost :=
  { text := some text, created_at := none, date := some date }

/-- `ent.label_` naming an event/disaster, for Strategy B. -/
def isEventLabel (l : String) : Bool := l == "EVENT" || l == "DISASTER"

/-- Modelled from the spec: the short fixed keyword list of the Strategy B
classifier (§4.3), whose implementation is not under `src/`. -/
def fallback_keywords : List String :=
  ["flood", "earthquake", "fire", "crash", "storm", "hurricane", "tornado"]

/-- First entity carrying an EVENT/DISASTER-style label, if any. -/
def evLoop : List Entity → Option Entity
  | [] => none
  | e :: rest => if isEventLabel e.label then some e else evLoop rest

/-- First fallback keyword contained in `t`, if any. -/
def fbLoop (t : String) : List String → Option String
  | [] => none
  | k :: rest => if strContains t k then some k else fbLoop t rest

/-- Modelled from the spec: the Strategy B classifier (§4.3), whose
implementation is not under `src/`: return the lowercased text of the first
EVENT/DISASTER-labelled entity; otherwise the first fallback keyword found
as a case-insensitive substring; otherwise `"unknown"`. -/
def classify_strategy_b (nlp : String → List Entity) (text : String) :
    String :=
  match evLoop (nlp text) with
  | some e => lowerStr e.text
  | none =>
    match fbLoop (lowerStr text) fallback_keywords with
    | some k => k
    | none => "unknown"

/-- Modelled from the spec: the two classifier strategies that §4.3 says
callers can select between. -/
inductive Strategy where
  | keywordTaxonomy
  | entityFallback
deriving DecidableEq

/-- Modelled from the spec: the strategy-selectable classification
interface of §4.3 (`classify(text)` under a configured strategy). -/
def classify (nlp : String → List Entity) (s : Strategy) (text : String) :
    String :=
  match s with
  | .keywordTaxonomy => identify_incident_type text
  | .entityFallback => classify_strategy_b nlp text

/-- Modelled from the spec: at the head of `cs`, a substring of the
link-reference shape `https://<domain>/<token>` — the literal `https://`
followed by a run of non-space characters containing a further `/`.
Returns that whole run. -/
def spec_link_here (cs : List Char) : Option (List Char) :=
  if startsWithL "https://".data cs then
    let run := cs.takeWhile (fun c => !(c == ' '))
    if containsL ['/'] (run.drop 8) then some run else none
  else none

/-- Modelled from the spec: scan for the first link-reference substring
(fuel-driven scan over the characters). -/
def spec_first_link_go : ℕ → List Char → List Char
  | 0, _ => []
  | _, [] => []
  | n + 1, c :: rest =>
    match spec_link_here (c :: rest) with
    | some run => run
    | none => spec_first_link_go n rest

/-- Modelled from the spec: the first substring of `s` matching the
link-reference pattern, `""` if none (§4.4's `original_link`). -/
def spec_first_link (s : String) : String :=
  ⟨spec_first_link_go s.data.length s.data⟩

/-- Modelled from the spec: remove every link-reference substring. -/
def spec_remove_go : ℕ → List Char → List Char
  | 0, _ => []
  | _, [] => []
  | n + 1, c :: rest =>
    match spec_link_here (c :: rest) with
    | some run => spec_remove_go n ((c :: rest).drop run.length)
    | none => c :: spec_remove_go n rest

/-- Drop spaces at both ends. -/
def trimChars (cs : List Char) : List Char :=
  ((cs.dropWhile (fun c => c == ' ')).reverse.dropWhile
    (fun c => c == ' ')).reverse

/-- Modelled from the spec: `description` per §4.4 — the text with all
link-reference substrings removed (surrounding whitespace trimmed, as in
the §8 example scenario). -/
def spec_remove_links (s : String) : String :=
  ⟨trimChars (spec_remove_go s.data.length s.data)⟩

/-! ### Concrete instantiations of the external capabilities -/

/-- An NLP model finding no entities. -/
def nlpNone : String → List Entity := fun _ => []

/-- A geocoder finding no match (and never raising). -/
def geoNone : String → Except Unit (Option GeoMatch) := fun _ => .ok none

/-- An NLP model tagging `"Manila"` as a geopolitical entity in every text. -/
def nlpManila : String → List Entity := fun _ => [⟨"Manila", "GPE"⟩]

/-- A geocoder whose call raises a network/service error. -/
def geoErr : String → Except Unit (Option GeoMatch) := fun _ => .error ()

/-- The geocoder row for Manila from the §8 example scenario. -/
def gmManila : GeoMatch :=
  ⟨"Manila", "Philippines", some ((146 : ℚ) / 10), some ((12098 : ℚ) / 100)⟩

/-- A geocoder resolving every query to the Manila row. -/
def geoManila : String → Except Unit (Option GeoMatch) :=
  fun _ => .ok (some gmManila)

/-- The §8 example scenario's post text. -/
def manilaText : String :=
  "Severe flooding reported near Manila after heavy rain https://t.co/abc123"

/-- The §8 example scenario's post, date under the key `date` as the
collector writes it. -/
def manilaPost : RawPost := collected_post manilaText "2024-03-01"

/-- The record `process_entry` emits for the §8 example post when the NLP
model finds no entity. -/
def manilaRecord : StandardizedIncident :=
  ⟨"flooding", empty_location, "", manilaText, manilaText⟩

/-- An NLP model tagging `"Flood"` as an EVENT entity in every text. -/
def nlpEvent : String → List Entity := fun _ => [⟨"Flood", "EVENT"⟩]

/-! ### Helper lemmas -/

theorem startsWithL_iff (n : List Char) :
    ∀ h : List Char, startsWithL n h = true ↔ ∃ t, h = n ++ t := by
  induction n with
  | nil => intro h; simp [startsWithL]
  | cons a as ih =>
    intro h
    cases h with
    | nil =>
      simp [startsWithL]
    | cons b bs =>
      simp only [startsWithL, Bool.and_eq_true, beq_iff_eq, ih,
        List.cons_append, List.cons.injEq]
      constructor
      · rintro ⟨rfl, t, rfl⟩
        exact ⟨t, rfl, rfl⟩
      · rintro ⟨t, rfl, rfl⟩
        exact ⟨rfl, t, rfl⟩

theorem containsL_iff (n : List Char) :
    ∀ h : List Char, containsL n h = true ↔ ∃ s t, h = s ++ n ++ t := by
  intro h
  induction h with
  | nil =>
    simp only [containsL, startsWithL_iff]
    constructor
    · rintro ⟨t, ht⟩
      exact ⟨[], t, by simpa using ht⟩
    · rintro ⟨s, t, ht⟩
      rw [List.append_assoc] at ht
      rcases List.append_eq_nil.mp ht.symm with ⟨rfl, h2⟩
      exact ⟨t, by simpa using ht⟩
  | cons c rest ih =>
    simp only [containsL, Bool.or_eq_true, startsWithL_iff, ih]
    constructor
    · rintro (⟨t, ht⟩ | ⟨s, t, rfl⟩)
      · exact ⟨[], t, by simpa using ht⟩
      · exact ⟨c :: s, t, by simp⟩
    · rintro ⟨s, t, ht⟩
      cases s with
      | nil => exact Or.inl ⟨t, by simpa using ht⟩
      | cons s0 ss =>
        simp only [List.cons_append, List.cons.injEq] at ht
        exact Or.inr ⟨ss, t, ht.2⟩

/-- Substring containment is transitive through an inner occurrence. -/
theorem containsL_inner {hay a b : List Char}
    (hab : containsL b a = true) (hha : containsL a hay = true) :
    containsL b hay = true := by
  rcases (containsL_iff a hay).mp hha with ⟨s, t, rfl⟩
  rcases (containsL_iff b a).mp hab with ⟨u, v, rfl⟩
  exact (containsL_iff b _).mpr ⟨s ++ u, v ++ t, by simp⟩

theorem exceptBind_ok {ε α β : Type} (a : α) (f : α → Except ε β) :
    ((Except.ok a : Except ε α) >>= f) = f a := rfl

theorem exceptBind_error {ε α β : Type} (e : ε) (f : α → Except ε β) :
    ((Except.error e : Except ε α) >>= f) = .error e := rfl

/-- The keyword loop returns the label of the first matching entry. -/
theorem lookupType_eq_of_first (t : String) :
    ∀ (l : List (String × String)) (i : ℕ) (h : i < l.length),
      strContains t (l.get ⟨i, h⟩).1 = true →
      (∀ j (hj : j < i), strContains t (l.get ⟨j, Nat.lt_trans hj h⟩).1 = false) →
      lookupType t l = (l.get ⟨i, h⟩).2 := by
  intro l
  induction l with
  | nil => intro i h; exact absurd h (Nat.not_lt_zero i)
  | cons kv rest ih =>
    intro i h hm hb
    cases i with
    | zero =>
      simp only [List.get] at hm ⊢
      simp [lookupType, hm]
    | succ n =>
      have h0 : strContains t kv.1 = false := hb 0 (Nat.succ_pos n)
      simp only [List.get] at hm ⊢
      simp only [lookupType, h0, Bool.false_eq_true, if_false]
      exact ih n (Nat.lt_of_succ_lt_succ h) hm
        (fun j hj => hb (j + 1) (Nat.succ_lt_succ hj))

/-- The keyword loop either misses every entry and answers `"unknown"`, or
answers the label of the first matching entry. -/
theorem lookupType_cases (t : String) :
    ∀ l : List (String × String),
      (lookupType t l = "unknown" ∧ ∀ kv ∈ l, strContains t kv.1 = false) ∨
      ∃ i, ∃ h : i < l.length, strContains t (l.get ⟨i, h⟩).1 = true ∧
        (∀ j (hj : j < i), strContains t (l.get ⟨j, Nat.lt_trans hj h⟩).1 = false) ∧
        lookupType t l = (l.get ⟨i, h⟩).2 := by
  intro l
  induction l with
  | nil => exact Or.inl ⟨rfl, by simp⟩
  | cons kv rest ih =>
    by_cases hm : strContains t kv.1 = true
    · refine Or.inr ⟨0, Nat.succ_pos _, ?_, ?_, ?_⟩
      · simpa [List.get] using hm
      · intro j hj; exact absurd hj (Nat.not_lt_zero j)
      · simp [lookupType, hm, List.get]
    · have hm' : strContains t kv.1 = false := by
        simpa using hm
      rcases ih with ⟨hu, hall⟩ | ⟨i, h, hmi, hbi, he⟩
      · refine Or.inl ⟨by simp [lookupType, hm', hu], ?_⟩
        intro kv' hkv'
        rcases List.mem_cons.mp hkv' with rfl | hkv'
        · exact hm'
        · exact hall kv' hkv'
      · refine Or.inr ⟨i + 1, Nat.succ_lt_succ h, ?_, ?_, ?_⟩
        · simpa [List.get] using hmi
        · intro j hj
          cases j with
          | zero => simpa [List.get] using hm'
          | succ j' =>
            simpa [List.get] using hbi j' (Nat.lt_of_succ_lt_succ hj)
        · simpa [lookupType, hm', List.get] using he

/-- The entity loop of `extract_location` returns the geocoded row of the
first `GPE`/`LOC` entity whose geocoding yields a match, provided no earlier
place entity makes the geocoder raise. -/
theorem locLoop_first (g : String → Except Unit (Option GeoMatch)) :
    ∀ (es : List Entity) (i : ℕ) (h : i < es.length) (m : GeoMatch),
      isPlaceLabel (es.get ⟨i, h⟩).label = true →
      g (es.get ⟨i, h⟩).text = .ok (some m) →
      (∀ j (hj : j < i),
        isPlaceLabel (es.get ⟨j, Nat.lt_trans hj h⟩).label = false ∨
        g (es.get ⟨j, Nat.lt_trans hj h⟩).text = .ok none) →
      locLoop g es = .ok ⟨m.city, m.country, [m.y, m.x]⟩ := by
  intro es
  induction es with
  | nil => intro i h; exact absurd h (Nat.not_lt_zero i)
  | cons e rest ih =>
    intro i h m hp hg hb
    cases i with
    | zero =>
      simp only [List.get] at hp hg
      simp [locLoop, hp, hg]
    | succ n =>
      simp only [List.get] at hp hg
      have hrec := ih n (Nat.lt_of_succ_lt_succ h) m hp hg
        (fun j hj => by
          simpa [List.get] using hb (j + 1) (Nat.succ_lt_succ hj))
      rcases hb 0 (Nat.succ_pos n) with h0 | h0 <;>
        simp only [List.get] at h0 <;>
        simp [locLoop, h0, hrec]

/-- A successful `mapExcept` run maps every position. -/
theorem mapExcept_ok {α β ε : Type} (f : α → Except ε β) :
    ∀ (l : List α) (out : List β), mapExcept f l = .ok out →
      out.length = l.length ∧
      ∀ i (h : i < l.length) (h2 : i < out.length),
        f (l.get ⟨i, h⟩) = .ok (out.get ⟨i, h2⟩) := by
  intro l
  induction l with
  | nil =>
    intro out hout
    simp only [mapExcept, Except.ok.injEq] at hout
    subst hout
    exact ⟨rfl, fun i h => absurd h (Nat.not_lt_zero i)⟩
  | cons a as ih =>
    intro out hout
    simp only [mapExcept] at hout
    cases hfa : f a with
    | error e =>
      rw [hfa, exceptBind_error] at hout
      exact absurd hout (by simp)
    | ok b =>
      rw [hfa, exceptBind_ok] at hout
      cases hrec : mapExcept f as with
      | error e =>
        rw [hrec, exceptBind_error] at hout
        exact absurd hout (by simp)
      | ok bs =>
        rw [hrec, exceptBind_ok] at hout
        simp only [Except.ok.injEq] at hout
        subst hout
        rcases ih bs hrec with ⟨hlen, hget⟩
        refine ⟨by simp [hlen], ?_⟩
        intro i h h2
        cases i with
        | zero => simpa [List.get] using hfa
        | succ n =>
          simpa [List.get] using
            hget n (Nat.lt_of_succ_lt_succ h) (Nat.lt_of_succ_lt_succ h2)

/-- If any element of the batch raises, the whole `mapExcept` run raises. -/
theorem mapExcept_error_of_mem {α β : Type} (f : α → Except Unit β) :
    ∀ (l : List α) (e : α), e ∈ l → f e = .error () →
      mapExcept f l = .error () := by
  intro l
  induction l with
  | nil => intro e he; exact absurd he (List.not_mem_nil e)
  | cons a as ih =>
    intro e he hf
    rcases List.mem_cons.mp he with rfl | he'
    · show (f e >>= fun b => mapExcept f as >>= fun bs => .ok (b :: bs)) = .error ()
      rw [hf, exceptBind_error]
    · cases hfa : f a with
      | error u =>
        cases u
        show (f a >>= fun b => mapExcept f as >>= fun bs => .ok (b :: bs)) = .error ()
        rw [hfa, exceptBind_error]
      | ok b =>
        show (f a >>= fun b => mapExcept f as >>= fun bs => .ok (b :: bs)) = .error ()
        rw [hfa, exceptBind_ok, ih e he' hf, exceptBind_error]

/-- The EVENT/DISASTER entity scan returns the first such entity. -/
theorem evLoop_first :
    ∀ (es : List Entity) (i : ℕ) (h : i < es.length),
      isEventLabel (es.get ⟨i, h⟩).label = true →
      (∀ j (hj : j < i), isEventLabel (es.get ⟨j, Nat.lt_trans hj h⟩).label = false) →
      evLoop es = some (es.get ⟨i, h⟩) := by
  intro es
  induction es with
  | nil => intro i h; exact absurd h (Nat.not_lt_zero i)
  | cons e rest ih =>
    intro i h hm hb
    cases i with
    | zero =>
      simp only [List.get] at hm ⊢
      simp [evLoop, hm]
    | succ n =>
      have h0 : isEventLabel e.label = false := by
        simpa [List.get] using hb 0 (Nat.succ_pos n)
      simp only [List.get] at hm ⊢
      simp only [evLoop, h0, Bool.false_eq_true, if_false]
      exact ih n (Nat.lt_of_succ_lt_succ h) hm
        (fun j hj => by simpa [List.get] using hb (j + 1) (Nat.succ_lt_succ hj))

/-- The EVENT/DISASTER entity scan misses iff every entity misses. -/
theorem evLoop_none :
    ∀ es : List Entity, (∀ e ∈ es, isEventLabel e.label = false) →
      evLoop es = none := by
  intro es
  induction es with
  | nil => intro _; rfl
  | cons e rest ih =>
    intro hall
    have h0 : isEventLabel e.label = false := hall e (List.mem_cons_self e rest)
    simp [evLoop, h0, ih (fun e' he' => hall e' (List.mem_cons_of_mem e he'))]

/-- The fallback keyword scan returns the first contained keyword. -/
theorem fbLoop_first (t : String) :
    ∀ (l : List String) (i : ℕ) (h : i < l.length),
      strContains t (l.get ⟨i, h⟩) = true →
      (∀ j (hj : j < i), strContains t (l.get ⟨j, Nat.lt_trans hj h⟩) = false) →
      fbLoop t l = some (l.get ⟨i, h⟩) := by
  intro l
  induction l with
  | nil => intro i h; exact absurd h (Nat.not_lt_zero i)
  | cons k rest ih =>
    intro i h hm hb
    cases i with
    | zero =>
      simp only [List.get] at hm ⊢
      simp [fbLoop, hm]
    | succ n =>
      have h0 : strContains t k = false := by
        simpa [List.get] using hb 0 (Nat.succ_pos n)
      simp only [List.get] at hm ⊢
      simp only [fbLoop, h0, Bool.false_eq_true, if_false]
      exact ih n (Nat.lt_of_succ_lt_succ h) hm
        (fun j hj => by simpa [List.get] using hb (j + 1) (Nat.succ_lt_succ hj))

/-- The fallback keyword scan misses iff every keyword misses. -/
theorem fbLoop_none (t : String) :
    ∀ l : List String, (∀ k ∈ l, strContains t k = false) →
      fbLoop t l = none := by
  intro l
  induction l with
  | nil => intro _; rfl
  | cons k rest ih =>
    intro hall
    have h0 : strContains t k = false := hall k (List.mem_cons_self k rest)
    simp [fbLoop, h0, ih (fun k' hk' => hall k' (List.mem_cons_of_mem k hk'))]

/-- Unfolding equation for `process_data` on a readable input file. -/
theorem process_data_ok_eq (nlp : String → List Entity)
    (geocode : String → Except Unit (Option GeoMatch))
    (entries : List RawPost) (writeOk : Bool) :
    process_data nlp geocode (.ok entries) writeOk =
      match mapExcept (process_entry nlp geocode) entries with
      | .error _ => none
      | .ok processed_data => if writeOk then some processed_data else none :=
  rfl

/-! ### The claims -/

/-- Claim C5: Strategy A iterates the keyword table in definition order and
returns the label of the first keyword occurring case-insensitively in the
text; several occurring keywords are resolved by definition order; and the
result is `"unknown"` iff no taxonomy keyword occurs in the text. -/
theorem c5_taxonomy_first_match (text : String) :
    (∀ i (h : i < keywords.length),
      strContains (lowerStr text) (keywords.get ⟨i, h⟩).1 = true →
      (∀ j (hj : j < i),
        strContains (lowerStr text) (keywords.get ⟨j, Nat.lt_trans hj h⟩).1 = false) →
      identify_incident_type text = (keywords.get ⟨i, h⟩).2) ∧
    (identify_incident_type text = "unknown" ↔
      ∀ kv ∈ keywords, strContains (lowerStr text) kv.1 = false) := by
  constructor
  · intro i h hm hb
    exact lookupType_eq_of_first (lowerStr text) keywords i h hm hb
  · constructor
    · intro hu
      rcases lookupType_cases (lowerStr text) keywords with ⟨_, hall⟩ | ⟨i, h, hm, _, he⟩
      · exact hall
      · exfalso
        have hnu : ∀ kv ∈ keywords, kv.2 ≠ "unknown" := by decide
        have hu' : lookupType (lowerStr text) keywords = "unknown" := hu
        exact hnu _ (List.get_mem keywords i h) (he ▸ hu')
    · intro hall
      rcases lookupType_cases (lowerStr text) keywords with ⟨hu, _⟩ | ⟨i, h, hm, _, _⟩
      · exact hu
      · have hfalse := hall _ (List.get_mem keywords i h)
        rw [hfalse] at hm
        exact Bool.noConfusion hm

/-- Claim C5 (witness): on `"Flood damage and fire"` the first taxonomy
entry `("flood", "flooding")` matches, so Strategy A answers `"flooding"`. -/
theorem c5_witness : identify_incident_type "Flood damage and fire" = "flooding" := by
  have h := (c5_taxonomy_first_match "Flood damage and fire").1 0 (by decide)
    (by decide) (fun j hj => absurd hj (Nat.not_lt_zero j))
  exact h

/-- Claim C10 (counterexample): the text `"flood bridge collapse"` contains
`"bridge collapse"` yet classifies as `"flooding"`, not `"building
collapse"` — the claim's universal statement fails. -/
theorem c10_counterexample :
    strContains (lowerStr "flood bridge collapse") "bridge collapse" = true ∧
    identify_incident_type "flood bridge collapse" = "flooding" ∧
    identify_incident_type "flood bridge collapse" ≠ "building collapse" := by
  exact ⟨by decide, by decide, by decide⟩

/-- Claim C10 (amended): a text containing `"bridge collapse"` also
contains `"collapse"`, whose entry (index 31) precedes every
`"infrastructure failure"` entry, so the classifier never answers
`"infrastructure failure"` on such a text; and when no entry before
`"collapse"` matches, it answers `"building collapse"`. -/
theorem c10_bridge_collapse_shadowed (text : String)
    (hbc : strContains (lowerStr text) "bridge collapse" = true) :
    identify_incident_type text ≠ "infrastructure failure" ∧
    ((∀ kv ∈ keywords.take 31, strContains (lowerStr text) kv.1 = false) →
      identify_incident_type text = "building collapse") := by
  have hcol : strContains (lowerStr text) "collapse" = true :=
    containsL_inner (by decide) hbc
  have h31 : 31 < keywords.length := by decide
  constructor
  · rcases lookupType_cases (lowerStr text) keywords with ⟨_, hall⟩ | ⟨i, h, hm, hb, he⟩
    · exact absurd hcol (by simpa using hall ("collapse", "building collapse") (by decide))
    · have hile : i ≤ 31 := by
        by_contra hgt
        have h31i : 31 < i := Nat.lt_of_not_le hgt
        have := hb 31 h31i
        exact absurd hcol (by simpa using this)
      have hlab : ∀ i' (h' : i' < keywords.length), i' ≤ 31 →
          (keywords.get ⟨i', h'⟩).2 ≠ "infrastructure failure" := by decide
      have he' : identify_incident_type text = (keywords.get ⟨i, h⟩).2 := he
      rw [he']
      exact hlab i h hile
  · intro hpre
    have hm31 : strContains (lowerStr text) (keywords.get ⟨31, h31⟩).1 = true := hcol
    have hb31 : ∀ j (hj : j < 31),
        strContains (lowerStr text) (keywords.get ⟨j, Nat.lt_trans hj h31⟩).1 = false := by
      intro j hj
      refine hpre _ ?_
      rw [List.get_eq_getElem]
      exact (List.mem_take_iff_getElem).mpr ⟨j, by omega, by simp⟩
    exact lookupType_eq_of_first (lowerStr text) keywords 31 h31 hm31 hb31

/-- Claim C10 (witness): on the bare text `"bridge collapse"` no earlier
taxonomy entry matches, so the classifier answers `"building collapse"`,
and in particular not `"infrastructure failure"`. -/
theorem c10_witness :
    identify_incident_type "bridge collapse" ≠ "infrastructure failure" ∧
    identify_incident_type "bridge collapse" = "building collapse" := by
  have h := c10_bridge_collapse_shadowed "bridge collapse" (by decide)
  exact ⟨h.1, h.2 (by decide)⟩

/-- Claim C1 (counterexample): on the §8 example post the emitted record's
`description` is the unmodified text, still containing the link
`https://t.co/abc123`, not the text with link substrings removed; the code
writes an `original_text` key equal to the raw text and no `original_link`
key at all. -/
theorem c1_counterexample :
    Except.map StandardizedIncident.description
      (process_entry nlpNone geoNone manilaPost) = .ok manilaText ∧
    spec_first_link manilaText = "https://t.co/abc123" ∧
    manilaText ≠ spec_remove_links manilaText := by
  exact ⟨rfl, by decide, by decide⟩

/-- Claim C1 (amended): for every post, the emitted record's `description`
and `original_text` both equal the post's text unchanged — no link
substring is extracted or removed, and no `original_link` field exists. -/
theorem c1_description_unstripped (nlp : String → List Entity)
    (geocode : String → Except Unit (Option GeoMatch)) (p : RawPost)
    (r : StandardizedIncident) (h : process_entry nlp geocode p = .ok r) :
    r.description = p.text.getD "" ∧ r.original_text = p.text.getD "" := by
  have h' : (extract_location nlp geocode (p.text.getD "") >>= fun location_info =>
      (.ok { incident_type := identify_incident_type (p.text.getD ""),
             location := location_info,
             date := p.created_at.getD "",
             description := p.text.getD "",
             original_text := p.text.getD "" } : Except Unit StandardizedIncident)) = .ok r := h
  cases hloc : extract_location nlp geocode (p.text.getD "") with
  | error u =>
    rw [hloc, exceptBind_error] at h'
    exact absurd h' (by simp)
  | ok li =>
    rw [hloc, exceptBind_ok] at h'
    injection h' with h''
    subst h''
    exact ⟨rfl, rfl⟩

/-- Claim C1 (witness): the §8 example post processed with an entity-free
NLP model yields `manilaRecord`, whose `description` and `original_text`
are the raw text. -/
theorem c1_witness :
    process_entry nlpNone geoNone manilaPost = .ok manilaRecord ∧
    manilaRecord.description = manilaText ∧
    manilaRecord.original_text = manilaText := by
  have hpe : process_entry nlpNone geoNone manilaPost = .ok manilaRecord := rfl
  have h := c1_description_unstripped nlpNone geoNone manilaPost manilaRecord hpe
  exact ⟨hpe, h.1, h.2⟩

/-- Claim C3 (code_bug evidence): the §8 example post — with its date under
the key `date`, exactly as the repository's own collector writes it — is
processed to a record whose `date` is `""`, because `process_data` reads
only the key `created_at`. -/
theorem c3_date_dropped :
    (collected_post manilaText "2024-03-01").date = some "2024-03-01" ∧
    Except.map StandardizedIncident.date
      (process_entry nlpNone geoNone (collected_post manilaText "2024-03-01")) =
      .ok "" ∧
    ("" : String) ≠ "2024-03-01" := by
  exact ⟨rfl, rfl, by decide⟩

/-- Claim C4 (counterexample): with a geocoder whose call raises, the
resolver propagates the error instead of returning the empty LocationInfo,
and a two-post batch aborts with no output at all — the error is not caught
inside `extract_location` and it does abort the remaining records. -/
theorem c4_counterexample :
    extract_location nlpManila geoErr manilaText = .error () ∧
    extract_location nlpManila geoErr manilaText ≠ .ok empty_location ∧
    process_data nlpManila geoErr (.ok [manilaPost, manilaPost]) true = none := by
  refine ⟨rfl, ?_, rfl⟩
  intro h
  have h' : (Except.error () : Except Unit LocationInfo) = .ok empty_location := h
  exact Except.noConfusion h'

/-- Claim C4 (amended): a geocoding error raised during location resolution
is caught only at the batch boundary: if any record of the batch raises
inside `process_entry`, the whole `process_data` run aborts and writes
nothing, the remaining records included. -/
theorem c4_geocode_error_aborts_batch (nlp : String → List Entity)
    (geocode : String → Except Unit (Option GeoMatch))
    (entries : List RawPost) (writeOk : Bool) (e : RawPost)
    (he : e ∈ entries) (herr : process_entry nlp geocode e = .error ()) :
    process_data nlp geocode (.ok entries) writeOk = none := by
  have hmap : mapExcept (process_entry nlp geocode) entries = .error () :=
    mapExcept_error_of_mem _ entries e he herr
  rw [process_data_ok_eq, hmap]

/-- Claim C4 (witness): a singleton batch whose only record makes the
geocoder raise yields no output. -/
theorem c4_witness :
    manilaPost ∈ [manilaPost] ∧
    process_entry nlpManila geoErr manilaPost = .error () ∧
    process_data nlpManila geoErr (.ok [manilaPost]) true = none := by
  refine ⟨List.mem_singleton_self _, rfl, ?_⟩
  exact c4_geocode_error_aborts_batch nlpManila geoErr [manilaPost] true manilaPost
    (List.mem_singleton_self _) rfl

/-- Claim C6: whenever `process_data` writes an output, it holds exactly
one standardized record per input post, the i-th output derived from the
i-th input — same length, input order preserved. -/
theorem c6_order_preservation (nlp : String → List Entity)
    (geocode : String → Except Unit (Option GeoMatch))
    (raw : Except Unit (List RawPost)) (writeOk : Bool)
    (out : List StandardizedIncident)
    (h : process_data nlp geocode raw writeOk = some out) :
    ∃ entries, raw = .ok entries ∧ out.length = entries.length ∧
      ∀ i (h1 : i < entries.length) (h2 : i < out.length),
        process_entry nlp geocode (entries.get ⟨i, h1⟩) = .ok (out.get ⟨i, h2⟩) := by
  cases raw with
  | error u => exact absurd h (by simp [process_data])
  | ok entries =>
    refine ⟨entries, rfl, ?_⟩
    rw [process_data_ok_eq] at h
    cases hmap : mapExcept (process_entry nlp geocode) entries with
    | error u =>
      rw [hmap] at h
      exact absurd h (by simp)
    | ok processed =>
      rw [hmap] at h
      cases writeOk with
      | false => exact absurd h (by simp)
      | true =>
        simp only [if_true, Option.some.injEq] at h
        subst h
        exact ⟨(mapExcept_ok _ entries processed hmap).1,
               (mapExcept_ok _ entries processed hmap).2⟩

/-- Claim C6 (witness): a completed singleton batch yields exactly one
record, derived from its one post. -/
theorem c6_witness :
    ∃ entries, (Except.ok [manilaPost] : Except Unit (List RawPost)) = .ok entries ∧
      [manilaRecord].length = entries.length ∧
      ∀ i (h1 : i < entries.length) (h2 : i < [manilaRecord].length),
        process_entry nlpNone geoNone (entries.get ⟨i, h1⟩) =
          .ok ([manilaRecord].get ⟨i, h2⟩) :=
  c6_order_preservation nlpNone geoNone (.ok [manilaPost]) true [manilaRecord] rfl

/-- Claim C7: when the first resolvable place entity yields a geocoder
match, the resolver returns that match's `City`/`Country` and the
coordinate pair `[Y, X]` — latitude then longitude, in that order. -/
theorem c7_coordinates_lat_lon (nlp : String → List Entity)
    (geocode : String → Except Unit (Option GeoMatch)) (text : String)
    (i : ℕ) (h : i < (nlp text).length) (m : GeoMatch)
    (hp : isPlaceLabel ((nlp text).get ⟨i, h⟩).label = true)
    (hg : geocode ((nlp text).get ⟨i, h⟩).text = .ok (some m))
    (hb : ∀ j (hj : j < i),
      isPlaceLabel ((nlp text).get ⟨j, Nat.lt_trans hj h⟩).label = false ∨
      geocode ((nlp text).get ⟨j, Nat.lt_trans hj h⟩).text = .ok none) :
    extract_location nlp geocode text = .ok ⟨m.city, m.country, [m.y, m.x]⟩ :=
  locLoop_first geocode (nlp text) i h m hp hg hb

/-- Claim C7 (witness): the §8 geocoder row for Manila comes back as
`coordinates = [14.6, 120.98]`, its `Y` field first. -/
theorem c7_witness :
    extract_location nlpManila geoManila manilaText =
      .ok ⟨"Manila", "Philippines",
        [some ((146 : ℚ) / 10), some ((12098 : ℚ) / 100)]⟩ :=
  c7_coordinates_lat_lon nlpManila geoManila manilaText 0 (by decide) gmManila
    rfl rfl (fun j hj => absurd hj (Nat.not_lt_zero j))

/-- Claim C8: `process_data` traps every error at the batch boundary and
returns; the output file either holds the complete processed array (one
record per input post) or is not written at all — never a partial batch. -/
theorem c8_batch_all_or_nothing (nlp : String → List Entity)
    (geocode : String → Except Unit (Option GeoMatch))
    (raw : Except Unit (List RawPost)) (writeOk : Bool) :
    process_data nlp geocode raw writeOk = none ∨
    ∃ entries out, raw = .ok entries ∧
      mapExcept (process_entry nlp geocode) entries = .ok out ∧
      out.length = entries.length ∧
      process_data nlp geocode raw writeOk = some out := by
  cases raw with
  | error u => exact Or.inl rfl
  | ok entries =>
    cases hmap : mapExcept (process_entry nlp geocode) entries with
    | error u =>
      refine Or.inl ?_
      rw [process_data_ok_eq, hmap]
    | ok out =>
      cases writeOk with
      | false =>
        refine Or.inl ?_
        rw [process_data_ok_eq, hmap]
        rfl
      | true =>
        refine Or.inr ⟨entries, out, rfl, hmap, (mapExcept_ok _ entries out hmap).1, ?_⟩
        rw [process_data_ok_eq, hmap]
        rfl

/-- Claim C9: a post without a `text` key is processed as if its text were
`""`: no error, incident type `"unknown"`, the empty LocationInfo, an empty
description (the NLP model finds no entity in the empty string). -/
theorem c9_missing_text_defaults (nlp : String → List Entity)
    (geocode : String → Except Unit (Option GeoMatch)) (p : RawPost)
    (hp : p.text = none) (hn : nlp "" = []) :
    process_entry nlp geocode p =
      .ok ⟨"unknown", empty_location, p.created_at.getD "", "", ""⟩ := by
  have htext : p.text.getD "" = "" := by rw [hp]; rfl
  show (extract_location nlp geocode (p.text.getD "") >>= fun location_info =>
    (.ok { incident_type := identify_incident_type (p.text.getD ""),
           location := location_info,
           date := p.created_at.getD "",
           description := p.text.getD "",
           original_text := p.text.getD "" } : Except Unit StandardizedIncident)) = _
  rw [htext]
  have hloc : extract_location nlp geocode "" = .ok empty_location := by
    unfold extract_location
    rw [hn]
    rfl
  have hid : identify_incident_type "" = "unknown" := rfl
  rw [hloc, exceptBind_ok, hid]

/-- Claim C9 (witness): a record with only a `created_at` key processes to
the all-default record carrying that date. -/
theorem c9_witness :
    process_entry nlpNone geoNone ⟨none, some "2024-03-01", none⟩ =
      .ok ⟨"unknown", empty_location, "2024-03-01", "", ""⟩ :=
  c9_missing_text_defaults nlpNone geoNone ⟨none, some "2024-03-01", none⟩ rfl rfl

/-- Claim C2: under the selectable strategy interface, Strategy A is the
keyword taxonomy, and Strategy B returns the lowercased text of the first
EVENT/DISASTER-labelled entity, else the first of the seven fallback
keywords occurring case-insensitively in the text, else `"unknown"`. -/
theorem c2_strategy_b (nlp : String → List Entity) (text : String) :
    classify nlp Strategy.keywordTaxonomy text = identify_incident_type text ∧
    (∀ i (h : i < (nlp text).length),
      isEventLabel ((nlp text).get ⟨i, h⟩).label = true →
      (∀ j (hj : j < i),
        isEventLabel ((nlp text).get ⟨j, Nat.lt_trans hj h⟩).label = false) →
      classify nlp Strategy.entityFallback text =
        lowerStr ((nlp text).get ⟨i, h⟩).text) ∧
    ((∀ e ∈ nlp text, isEventLabel e.label = false) →
      (∀ k (hk : k < fallback_keywords.length),
        strContains (lowerStr text) (fallback_keywords.get ⟨k, hk⟩) = true →
        (∀ j (hj : j < k),
          strContains (lowerStr text) (fallback_keywords.get ⟨j, Nat.lt_trans hj hk⟩) = false) →
        classify nlp Strategy.entityFallback text = fallback_keywords.get ⟨k, hk⟩) ∧
      ((∀ k ∈ fallback_keywords, strContains (lowerStr text) k = false) →
        classify nlp Strategy.entityFallback text = "unknown")) := by
  refine ⟨rfl, ?_, ?_⟩
  · intro i h hm hb
    show classify_strategy_b nlp text = _
    unfold classify_strategy_b
    rw [evLoop_first (nlp text) i h hm hb]
  · intro hall
    have hev : evLoop (nlp text) = none := evLoop_none (nlp text) hall
    constructor
    · intro k hk hm hb
      show classify_strategy_b nlp text = _
      unfold classify_strategy_b
      rw [hev, fbLoop_first (lowerStr text) fallback_keywords k hk hm hb]
    · intro hnone
      show classify_strategy_b nlp text = _
      unfold classify_strategy_b
      rw [hev, fbLoop_none (lowerStr text) fallback_keywords hnone]

/-- Claim C2 (witness): Strategy B answers the lowercased EVENT entity when
one exists, the first matching fallback keyword when none does, and
`"unknown"` when nothing matches. -/
theorem c2_witness :
    classify nlpEvent Strategy.entityFallback "Flood in Manila" = "flood" ∧
    classify nlpNone Strategy.entityFallback "The earthquake struck" = "earthquake" ∧
    classify nlpNone Strategy.entityFallback "all quiet today" = "unknown" := by
  refine ⟨?_, ?_, ?_⟩
  · exact (c2_strategy_b nlpEvent "Flood in Manila").2.1 0 (by decide) rfl
      (fun j hj => absurd hj (Nat.not_lt_zero j))
  · exact ((c2_strategy_b nlpNone "The earthquake struck").2.2
      (fun e he => absurd he (List.not_mem_nil e))).1 1 (by decide) (by decide)
      (fun j hj => by
        have hj0 : j = 0 := Nat.lt_one_iff.mp hj
        subst hj0
        exact (by decide :
          strContains (lowerStr "The earthquake struck") "flood" = false))
  · exact ((c2_strategy_b nlpNone "all quiet today").2.2
      (fun e he => absurd he (List.not_mem_nil e))).2 (by decide)

end IncidentResponse
